import Mathlib

/-!
Shallow embedding of `Twitt_scrap_1.py` (a tweet-metadata scraping script).

The script's pure computational content is modelled as Lean functions:

* `extract_valid_links` embeds the cell-level behaviour of the link filter
  (the nested `for row in csv_reader / for link in row` loop guarded by
  `regex.match`), with file I/O abstracted to lists of rows of cells.
* `pyMatchTweet` embeds Python's `re.match` applied to the compiled pattern
  `https://x\.com/\w+/status/\d+$`: anchored at the start (because `match`
  is used), with `$` accepting either the end of the string or a position
  just before a single trailing newline (CPython semantics without
  `re.MULTILINE`).  The character classes `\w` and `\d` are modelled over
  ASCII; non-ASCII word characters are outside the model's scope.
* `extract_username_from_url` embeds `re.search` of
  `https://x\.com/(\w+)/status/\d+` followed by `group(1)`-or-`"N/A"`.
* `scrape_tweet_metadata` embeds the response-processing core of the
  scraping function: the input list models `_xhr_calls` (the XHR responses
  captured by the page interceptor, in observation order); browser driving
  itself is external.  Exceptions raised by `xhr.json()` or by the nested
  subscripting `data['data']['tweetResult']['result']['legacy']` are
  modelled by `Except.error`.
* `scrape_all_tweets` embeds the thread-pool orchestrator: the per-link
  outcome is a `behavior` function (`future.result()`, with `Except.error`
  for a raised exception) and the non-deterministic `as_completed` order is
  an explicit `completion` list, a permutation of the submitted links.
* `save_results_to_csv` embeds the result writer, producing the list of
  output lines, including the `csv.writer` minimal-quoting rule for
  delimiter `;`.
-/

/-- ASCII model of Python's `\w` character class: letters, digits, `_`. -/
def isPyWordChar (c : Char) : Bool :=
  c.isAlphanum || c = '_'

/-- The literal part `https://x.com/` of the tweet-URL patterns. -/
def hostLit : List Char :=
  "https://x.com/".toList

/-- The literal part `/status/` of the tweet-URL patterns. -/
def statusLit : List Char :=
  "/status/".toList

/-- Match a literal at the head of a character list, returning the rest. -/
def dropLit : List Char → List Char → Option (List Char)
  | [], cs => some cs
  | _ :: _, [] => none
  | l :: ls, c :: cs => if c = l then dropLit ls cs else none

/-- `re.match` of the compiled pattern `https://x\.com/\w+/status/\d+$` on a
character list: the literal host, a nonempty greedy `\w` run, the literal
`/status/`, a nonempty greedy digit run, then `$` (end of input, or a single
trailing newline, per CPython's `$` semantics). -/
def pyMatchTweet (cs : List Char) : Bool :=
  match dropLit hostLit cs with
  | none => false
  | some rest =>
    let w := rest.takeWhile isPyWordChar
    if w.isEmpty then false else
      match dropLit statusLit (rest.dropWhile isPyWordChar) with
      | none => false
      | some rest2 =>
        let d := rest2.takeWhile Char.isDigit
        let tail := rest2.dropWhile Char.isDigit
        !d.isEmpty && (tail = [] || tail = ['\n'])

/-- String form of `pyMatchTweet`, the guard `regex.match(link)`. -/
def pyMatchTweetStr (s : String) : Bool :=
  pyMatchTweet s.toList

/-- One row of the filter loop: append to the accumulator every cell of the
row that passes the regex guard (the inner `for link in row`). -/
def filterRow (acc : List String) (row : List String) : List String :=
  row.foldl (fun a link => if pyMatchTweetStr link then a ++ [link] else a) acc

/-- Embedding of `extract_valid_links`: iterate the parsed rows of the input
file in order, writing every matching cell as one output row (`writerow`
emits one link per output line).  Input is the list of rows produced by
`csv.reader`; output is the list of written links in write order. -/
def extract_valid_links (rows : List (List String)) : List String :=
  rows.foldl filterRow []

/-- Match `https://x\.com/(\w+)/status/\d+` at the head of a character list,
returning group 1 (the `\w+` run).  Greedy `\w+` followed by the non-word
character `/` leaves no backtracking choice: the group is the maximal word
run after the host and must be immediately followed by `/status/` and at
least one digit. -/
def matchUserAt (cs : List Char) : Option (List Char) :=
  match dropLit hostLit cs with
  | none => none
  | some rest =>
    let w := rest.takeWhile isPyWordChar
    if w.isEmpty then none else
      match dropLit statusLit (rest.dropWhile isPyWordChar) with
      | none => none
      | some rest2 =>
        if (rest2.takeWhile Char.isDigit).isEmpty then none else some w

/-- `re.search`: try `matchUserAt` at every position, leftmost first. -/
def searchUser : List Char → Option (List Char)
  | [] => none
  | c :: cs =>
    match matchUserAt (c :: cs) with
    | some w => some w
    | none => searchUser cs

/-- Embedding of `extract_username_from_url`: `match.group(1)` when
`re.search` finds the pattern, `"N/A"` otherwise. -/
def extract_username_from_url (url : String) : String :=
  match searchUser url.toList with
  | some w => String.mk w
  | none => "N/A"

/-- JSON value, the shape of a decoded `xhr.json()` payload. -/
inductive JValue where
  | str : String → JValue
  | num : Int → JValue
  | bool : Bool → JValue
  | null : JValue
  | arr : List JValue → JValue
  | obj : List (String × JValue) → JValue

/-- Python-dict lookup on an association list (keys unique in practice). -/
def jLookup : List (String × JValue) → String → Option JValue
  | [], _ => none
  | (k, v) :: rest, key => if k = key then some v else jLookup rest key

/-- `d[k]` subscripting: raises (`Except.error`) on a missing key or on a
non-dict value, as Python's `KeyError`/`TypeError` would. -/
def jIndex : JValue → String → Except String JValue
  | JValue.obj fs, k =>
    match jLookup fs k with
    | some v => Except.ok v
    | none => Except.error ("KeyError: " ++ k)
  | _, k => Except.error ("TypeError: value is not subscriptable at key " ++ k)

/-- `d.get(k, 'N/A')`: the value at `k`, or the string `'N/A'` default. -/
def jGetD (fs : List (String × JValue)) (k : String) : JValue :=
  match jLookup fs k with
  | some v => v
  | none => JValue.str "N/A"

/-- One captured XHR response: its URL and the result of `xhr.json()`
(`Except.error` models a decode failure raising to the caller). -/
structure ResponseRecord where
  url : String
  body : Except String JValue

/-- Does `needle` occur at the head of `hay`? -/
def litAtHead : List Char → List Char → Bool
  | [], _ => true
  | _ :: _, [] => false
  | n :: ns, c :: cs => n = c && litAtHead ns cs

/-- Python's `needle in hay` substring test, on character lists. -/
def containsSub : List Char → List Char → Bool
  | [], needle => needle.isEmpty
  | c :: cs, needle => litAtHead needle (c :: cs) || containsSub cs needle

/-- String form of the substring test (`"TweetResultByRestId" in f.url`). -/
def strContainsSub (hay needle : String) : Bool :=
  containsSub hay.toList needle.toList

/-- The marker substring identifying the tweet-data endpoint. -/
def tweetMarker : String :=
  "TweetResultByRestId"

/-- The default all-`N/A` metadata dict returned when no XHR call matched,
with the field order of the source's literal dict. -/
def defaultMeta (username : String) : List (String × JValue) :=
  [("text", JValue.str "N/A"), ("username", JValue.str username),
   ("date", JValue.str "N/A"), ("comment_count", JValue.str "N/A"),
   ("like_count", JValue.str "N/A"), ("share_count", JValue.str "N/A")]

/-- The subscript chain `data['data']['tweetResult']['result']['legacy']`. -/
def navLegacy (data : JValue) : Except String JValue := do
  let a ← jIndex data "data"
  let b ← jIndex a "tweetResult"
  let c ← jIndex b "result"
  jIndex c "legacy"

/-- Processing of one matching XHR call: decode the body (a decode failure
propagates), navigate to the legacy record (a subscripting failure
propagates), then build the metadata dict with `.get(key, 'N/A')` lookups.
`result.get` on a non-dict raises (Python `AttributeError`). -/
def extractFromCall (username : String) (xhr : ResponseRecord) :
    Except String (List (String × JValue)) :=
  match xhr.body with
  | Except.error e => Except.error e
  | Except.ok data =>
    match navLegacy data with
    | Except.error e => Except.error e
    | Except.ok (JValue.obj fs) =>
      Except.ok
        [("text", jGetD fs "full_text"), ("username", JValue.str username),
         ("date", jGetD fs "created_at"), ("comment_count", jGetD fs "reply_count"),
         ("like_count", jGetD fs "favorite_count"), ("share_count", jGetD fs "retweet_count")]
    | Except.ok _ => Except.error "AttributeError: value has no attribute get"

/-- Embedding of the response-processing core of `scrape_tweet_metadata`:
filter the captured calls for the marker, process the first match (the
`for` loop returns unconditionally on its first iteration), or return the
default dict when no call matched. -/
def scrape_tweet_metadata (url : String) (xhrCalls : List ResponseRecord) :
    Except String (List (String × JValue)) :=
  let username := extract_username_from_url url
  match xhrCalls.filter (fun f => strContainsSub f.url tweetMarker) with
  | [] => Except.ok (defaultMeta username)
  | xhr :: _ => extractFromCall username xhr

/-- The error dict the orchestrator records for a link. -/
def errDict (msg : String) : List (String × JValue) :=
  [("error", JValue.str msg)]

/-- One completed future: `future.result()` via `behavior`; an empty (falsy)
dict is replaced by the `Could not scrape` descriptor, an exception by the
`Error: …` descriptor. -/
def runLink (behavior : String → Except String (List (String × JValue)))
    (link : String) : String × List (String × JValue) :=
  match behavior link with
  | Except.ok metadata =>
    (link, if metadata.isEmpty then errDict "Could not scrape" else metadata)
  | Except.error e => (link, errDict ("Error: " ++ e))

/-- Embedding of `scrape_all_tweets`: results are appended in `as_completed`
order, modelled by the explicit `completion` list (a permutation of the
submitted links); each link's outcome is `behavior link`. -/
def scrape_all_tweets (behavior : String → Except String (List (String × JValue)))
    (completion : List String) : List (String × List (String × JValue)) :=
  completion.map (runLink behavior)

mutual

/-- Python `str()` of a value placed in a CSV cell.  Atoms are rendered
exactly; containers are rendered in bracketed form (inner `repr` quoting of
strings is outside the model's scope — no claim depends on it). -/
def pyStr : JValue → String
  | JValue.str s => s
  | JValue.num n => toString n
  | JValue.bool b => cond b "True" "False"
  | JValue.null => "None"
  | JValue.arr xs => "[" ++ pyStrList xs ++ "]"
  | JValue.obj fs => "\x7b" ++ pyStrFields fs ++ "\x7d"

/-- Comma-joined rendering of array elements. -/
def pyStrList : List JValue → String
  | [] => ""
  | [x] => pyStr x
  | x :: y :: xs => pyStr x ++ ", " ++ pyStrList (y :: xs)

/-- Comma-joined rendering of object fields. -/
def pyStrFields : List (String × JValue) → String
  | [] => ""
  | [(k, v)] => k ++ ": " ++ pyStr v
  | (k, v) :: f :: fs => k ++ ": " ++ pyStr v ++ ", " ++ pyStrFields (f :: fs)

end

/-- `csv.writer` minimal quoting: a field is quoted iff it contains the
delimiter, the quote character, or a line break. -/
def needsQuoting (delim : Char) (s : String) : Bool :=
  s.toList.any (fun c => c = delim || c = '\"' || c = '\r' || c = '\n')

/-- Quote a field when needed, doubling embedded quote characters. -/
def quoteField (delim : Char) (s : String) : String :=
  if needsQuoting delim s then
    "\"" ++ String.join (s.toList.map (fun c => if c = '\"' then "\"\"" else String.mk [c])) ++ "\""
  else s

/-- Render one CSV row as a line: quoted fields joined by the delimiter. -/
def renderRow (delim : Char) (cells : List String) : String :=
  String.intercalate (String.mk [delim]) (cells.map (quoteField delim))

/-- The header cells written by `save_results_to_csv`. -/
def headerCells : List String :=
  ["Link", "Text", "Username", "Date", "Comment Count", "Like Count", "Share Count"]

/-- The seven cells of one data row: the link, then the six metadata fields
via `metadata.get(key, 'N/A')`, stringified by the writer. -/
def resultCells (r : String × List (String × JValue)) : List String :=
  [r.1, pyStr (jGetD r.2 "text"), pyStr (jGetD r.2 "username"),
   pyStr (jGetD r.2 "date"), pyStr (jGetD r.2 "comment_count"),
   pyStr (jGetD r.2 "like_count"), pyStr (jGetD r.2 "share_count")]

/-- Embedding of `save_results_to_csv`: the header line followed by one
line per result, in the order the results were supplied, with delimiter
`;`.  Output is the list of written lines. -/
def save_results_to_csv (results : List (String × List (String × JValue))) :
    List String :=
  renderRow ';' headerCells :: results.map (fun r => renderRow ';' (resultCells r))

example : pyMatchTweetStr "https://x.com/alice/status/12345" = true := by decide
example : pyMatchTweetStr "https://x.com/alice/status/" = false := by decide
example : pyMatchTweetStr "not a link" = false := by decide
example : pyMatchTweetStr "https://x.com/alice/status/12345 " = false := by decide
example : extract_username_from_url "https://x.com/alice/status/12345" = "alice" := by decide
example : extract_username_from_url "not a link" = "N/A" := by decide
example : extract_valid_links [["https://x.com/a/status/1", "nope"], ["https://x.com/b/status/2"]]
    = ["https://x.com/a/status/1", "https://x.com/b/status/2"] := by decide

/-! ### Helper lemmas about the link filter -/

theorem dropLit_iff (ls : List Char) :
    ∀ cs r, dropLit ls cs = some r ↔ cs = ls ++ r := by
  induction ls with
  | nil => intro cs r; simp [dropLit]
  | cons l ls ih =>
    intro cs r
    cases cs with
    | nil => simp [dropLit]
    | cons c cs =>
      simp only [dropLit]
      by_cases h : c = l
      · simp [h, ih]
      · simp [h]

theorem filterRow_eq (row : List String) :
    ∀ acc, filterRow acc row = acc ++ row.filter pyMatchTweetStr := by
  induction row with
  | nil => intro acc; simp [filterRow]
  | cons x xs ih =>
    intro acc
    show filterRow (if pyMatchTweetStr x then acc ++ [x] else acc) xs = _
    by_cases h : pyMatchTweetStr x
    · simp [h, ih, List.filter_cons]
    · simp [h, ih, List.filter_cons]

theorem foldl_filterRow_eq (rows : List (List String)) :
    ∀ acc, rows.foldl filterRow acc = acc ++ (rows.join).filter pyMatchTweetStr := by
  induction rows with
  | nil => intro acc; simp
  | cons r rs ih =>
    intro acc
    simp [List.foldl_cons, filterRow_eq, ih, List.filter_append]

theorem extract_valid_links_eq (rows : List (List String)) :
    extract_valid_links rows = (rows.join).filter pyMatchTweetStr := by
  simpa using foldl_filterRow_eq rows []

theorem join_map_singleton (xs : List String) :
    (xs.map (fun l => [l])).join = xs := by
  induction xs <;> simp [*]

/-- C2: the link filter writes exactly the subset of input cells matching
the anchored pattern `https://x\.com/\w+/status/\d+$`, one match per output
line, preserving the order in which cells are encountered; non-matching
cells are dropped and never cause an error (the output is the order-strict
filter of the flattened cell sequence). -/
theorem extract_valid_links_spec (rows : List (List String)) :
    extract_valid_links rows = (rows.join).filter pyMatchTweetStr
    ∧ (∀ l ∈ extract_valid_links rows, pyMatchTweetStr l = true)
    ∧ (extract_valid_links rows).Sublist rows.join := by
  refine ⟨extract_valid_links_eq rows, ?_, ?_⟩
  · intro l hl
    rw [extract_valid_links_eq] at hl
    exact List.of_mem_filter hl
  · rw [extract_valid_links_eq]
    exact List.filter_sublist _

/-- Witness for C2 at a concrete two-cell row. -/
theorem extract_valid_links_spec_witness :
    pyMatchTweetStr "https://x.com/alice/status/12345" = true :=
  (extract_valid_links_spec [["https://x.com/alice/status/12345", "not a link"]]).2.1
    "https://x.com/alice/status/12345" (by decide)

/-- C8: the link filter is idempotent — re-running it on its own output
(read back as one link per row) reproduces that output exactly. -/
theorem extract_valid_links_idem (rows : List (List String)) :
    extract_valid_links ((extract_valid_links rows).map (fun l => [l]))
      = extract_valid_links rows := by
  rw [extract_valid_links_eq, extract_valid_links_eq, join_map_singleton,
    List.filter_filter]
  simp

/-! ### The result writer -/

theorem renderRow_header :
    renderRow ';' headerCells
      = "Link;Text;Username;Date;Comment Count;Like Count;Share Count" := by
  decide

/-- C6: the output of the result writer is the exact header line followed by
one `;`-delimited data row per result, in the supplied order, each row
holding the seven columns in the fixed order, with `N/A` rendered for every
metadata field missing from the result's record; an empty result list
yields only the header line. -/
theorem save_results_format (results : List (String × List (String × JValue))) :
    save_results_to_csv results
      = "Link;Text;Username;Date;Comment Count;Like Count;Share Count"
        :: results.map (fun r => renderRow ';' (resultCells r))
    ∧ save_results_to_csv []
      = ["Link;Text;Username;Date;Comment Count;Like Count;Share Count"]
    ∧ (save_results_to_csv results).length = results.length + 1
    ∧ (∀ r : String × List (String × JValue),
        resultCells r
          = [r.1, pyStr (jGetD r.2 "text"), pyStr (jGetD r.2 "username"),
             pyStr (jGetD r.2 "date"), pyStr (jGetD r.2 "comment_count"),
             pyStr (jGetD r.2 "like_count"), pyStr (jGetD r.2 "share_count")])
    ∧ (∀ md k, jLookup md k = none → pyStr (jGetD md k) = "N/A") := by
  refine ⟨?_, ?_, ?_, fun r => rfl, ?_⟩
  · simp [save_results_to_csv, renderRow_header]
  · simp [save_results_to_csv, renderRow_header]
  · simp [save_results_to_csv]
  · intro md k h
    simp [jGetD, h, pyStr]

/-- Witness for C6 at a concrete missing key. -/
theorem save_results_format_witness :
    pyStr (jGetD [] "text") = "N/A" :=
  (save_results_format []).2.2.2.2 [] "text" rfl

/-- C9 counterexample: an errored link is distinguishable in the output
from a link whose page yielded no matching response — for the link
`https://x.com/alice/status/12345`, the no-match record carries the
URL-derived username `alice` in the Username column, while the error row
renders `N/A` there, so the two output files differ. -/
theorem save_error_row_counterexample :
    scrape_tweet_metadata "https://x.com/alice/status/12345" []
      = Except.ok (defaultMeta "alice")
    ∧ save_results_to_csv
        [("https://x.com/alice/status/12345", errDict "Error: Timeout 30000ms exceeded.")]
      ≠ save_results_to_csv
        [("https://x.com/alice/status/12345", defaultMeta "alice")] := by
  refine ⟨rfl, ?_⟩
  decide

/-- C9 amended: for an error-descriptor result the writer emits the link
followed by six `N/A` fields — the descriptor string is never rendered —
and such a row differs from a no-matching-response row exactly in the
Username column, which shows the URL-derived username in the default
record; the two coincide only when that username is itself `N/A`. -/
theorem save_error_row (link v u : String) :
    resultCells (link, errDict v) = [link, "N/A", "N/A", "N/A", "N/A", "N/A", "N/A"]
    ∧ resultCells (link, defaultMeta u) = [link, "N/A", u, "N/A", "N/A", "N/A", "N/A"] :=
  ⟨rfl, rfl⟩

/-! ### The metadata extractor -/

/-- A concrete legacy record used as a witness payload. -/
def sampleLegacy : List (String × JValue) :=
  [("full_text", JValue.str "hello"), ("created_at", JValue.str "Mon Nov 11 2024"),
   ("reply_count", JValue.num 1), ("favorite_count", JValue.num 2),
   ("retweet_count", JValue.num 3)]

/-- A concrete payload whose fixed path leads to `sampleLegacy`. -/
def samplePayload : JValue :=
  JValue.obj [("data", JValue.obj [("tweetResult",
    JValue.obj [("result", JValue.obj [("legacy", JValue.obj sampleLegacy)])])])]

/-- A concrete captured response whose URL contains the marker. -/
def sampleRecord : ResponseRecord :=
  ⟨"https://x.com/i/api/graphql/abc/TweetResultByRestId?id=12345",
   Except.ok samplePayload⟩

/-- C3: when the observed calls contain a marker-matching record, the
extractor consumes exactly the first such record in observation order:
if its payload decodes and the fixed path `data → tweetResult → result →
legacy` reaches a dict `fs`, the result is the six-field record with each
payload field read by fixed key or defaulted to `N/A`; and any call list
with the same first matching record yields the same result, so later
matching records are never consulted. -/
theorem scrape_first_match (url : String) (calls calls₂ : List ResponseRecord)
    (xhr : ResponseRecord) (rest rest₂ : List ResponseRecord)
    (data : JValue) (fs : List (String × JValue))
    (h1 : calls.filter (fun f => strContainsSub f.url tweetMarker) = xhr :: rest)
    (h2 : calls₂.filter (fun f => strContainsSub f.url tweetMarker) = xhr :: rest₂)
    (hbody : xhr.body = Except.ok data)
    (hnav : navLegacy data = Except.ok (JValue.obj fs)) :
    scrape_tweet_metadata url calls
      = Except.ok [("text", jGetD fs "full_text"),
                   ("username", JValue.str (extract_username_from_url url)),
                   ("date", jGetD fs "created_at"),
                   ("comment_count", jGetD fs "reply_count"),
                   ("like_count", jGetD fs "favorite_count"),
                   ("share_count", jGetD fs "retweet_count")]
    ∧ scrape_tweet_metadata url calls₂ = scrape_tweet_metadata url calls := by
  constructor
  · simp [scrape_tweet_metadata, h1, extractFromCall, hbody, hnav]
  · simp [scrape_tweet_metadata, h1, h2]

/-- Witness for C3 at a concrete matching response. -/
theorem scrape_first_match_witness :
    scrape_tweet_metadata "https://x.com/alice/status/12345" [sampleRecord]
      = Except.ok [("text", jGetD sampleLegacy "full_text"),
                   ("username", JValue.str (extract_username_from_url "https://x.com/alice/status/12345")),
                   ("date", jGetD sampleLegacy "created_at"),
                   ("comment_count", jGetD sampleLegacy "reply_count"),
                   ("like_count", jGetD sampleLegacy "favorite_count"),
                   ("share_count", jGetD sampleLegacy "retweet_count")] :=
  (scrape_first_match "https://x.com/alice/status/12345" [sampleRecord] [sampleRecord]
    sampleRecord [] [] samplePayload sampleLegacy rfl rfl rfl rfl).1

/-- C4: when no observed call's URL contains the marker, the extractor
returns the default record with every field `N/A` except the URL-derived
username; concretely, for `https://x.com/alice/status/12345` with no
captured calls the username is `alice` and every other field is `N/A`. -/
theorem scrape_no_match (url : String) (calls : List ResponseRecord)
    (h : calls.filter (fun f => strContainsSub f.url tweetMarker) = []) :
    scrape_tweet_metadata url calls
      = Except.ok (defaultMeta (extract_username_from_url url))
    ∧ scrape_tweet_metadata "https://x.com/alice/status/12345" []
      = Except.ok [("text", JValue.str "N/A"), ("username", JValue.str "alice"),
                   ("date", JValue.str "N/A"), ("comment_count", JValue.str "N/A"),
                   ("like_count", JValue.str "N/A"), ("share_count", JValue.str "N/A")] := by
  constructor
  · simp [scrape_tweet_metadata, h]
  · rfl

/-- Witness for C4 with an empty call list. -/
theorem scrape_no_match_witness :
    scrape_tweet_metadata "https://x.com/bob/status/7" []
      = Except.ok (defaultMeta (extract_username_from_url "https://x.com/bob/status/7")) :=
  (scrape_no_match "https://x.com/bob/status/7" [] rfl).1

/-! ### The orchestrator -/

theorem extractFromCall_ok_ne_nil (u : String) (xhr : ResponseRecord)
    (md : List (String × JValue))
    (h : extractFromCall u xhr = Except.ok md) : md ≠ [] := by
  unfold extractFromCall at h
  split at h
  · cases h
  · split at h
    · cases h
    · cases h; simp
    · cases h

theorem scrape_ok_ne_nil (url : String) (calls : List ResponseRecord)
    (md : List (String × JValue))
    (h : scrape_tweet_metadata url calls = Except.ok md) : md ≠ [] := by
  cases hf : calls.filter (fun f => strContainsSub f.url tweetMarker) with
  | nil =>
    have hd : scrape_tweet_metadata url calls
        = Except.ok (defaultMeta (extract_username_from_url url)) := by
      simp [scrape_tweet_metadata, hf]
    rw [hd] at h
    cases h
    simp [defaultMeta]
  | cons xhr rest =>
    have hd : scrape_tweet_metadata url calls
        = extractFromCall (extract_username_from_url url) xhr := by
      simp [scrape_tweet_metadata, hf]
    rw [hd] at h
    exact extractFromCall_ok_ne_nil _ _ _ h

theorem runLink_fst (behavior : String → Except String (List (String × JValue)))
    (link : String) : (runLink behavior link).1 = link := by
  unfold runLink
  cases behavior link <;> rfl

/-- C10: the orchestrator's falsy-result fallback is unreachable — every
non-exception completion of the extractor is a nonempty dict, so `runLink`
driven by the extractor always records the extractor's own dict (or the
exception descriptor) and never the `Could not scrape` descriptor. -/
theorem scrape_fallback_unreachable :
    (∀ (url : String) (calls : List ResponseRecord) (md : List (String × JValue)),
        scrape_tweet_metadata url calls = Except.ok md → md ≠ [])
    ∧ (∀ (callsOf : String → List ResponseRecord) (link : String),
        runLink (fun l => scrape_tweet_metadata l (callsOf l)) link
          = (link,
             match scrape_tweet_metadata link (callsOf link) with
             | Except.ok md => md
             | Except.error e => errDict ("Error: " ++ e))) := by
  refine ⟨scrape_ok_ne_nil, ?_⟩
  intro callsOf link
  cases hs : scrape_tweet_metadata link (callsOf link) with
  | ok md =>
    have hne : md ≠ [] := scrape_ok_ne_nil link (callsOf link) md hs
    have hemp : md.isEmpty = false := by
      cases md with
      | nil => exact absurd rfl hne
      | cons a as => rfl
    simp [runLink, hs, hemp]
  | error e =>
    simp [runLink, hs]

/-- Witness for C10 at a concrete link with no captured calls. -/
theorem scrape_fallback_unreachable_witness :
    defaultMeta "N/A" ≠ [] :=
  scrape_fallback_unreachable.1 "u" [] (defaultMeta "N/A") rfl

theorem scrape_all_fst (behavior : String → Except String (List (String × JValue)))
    (completion : List String) :
    (scrape_all_tweets behavior completion).map Prod.fst = completion := by
  unfold scrape_all_tweets
  rw [List.map_map]
  have : (Prod.fst ∘ runLink behavior) = fun l => l := by
    funext l
    exact runLink_fst behavior l
  rw [this, List.map_id']

/-- C1: for any completion order that is a permutation of the N submitted
links, the orchestrator's result list has exactly N entries and records,
counted with multiplicity, exactly one entry per input link — never zero
and never more than one — regardless of which individual links fail. -/
theorem scrape_all_count (behavior : String → Except String (List (String × JValue)))
    (links completion : List String) (h : completion.Perm links) :
    (scrape_all_tweets behavior completion).length = links.length
    ∧ ∀ link : String,
        ((scrape_all_tweets behavior completion).map Prod.fst).count link
          = links.count link := by
  constructor
  · calc (scrape_all_tweets behavior completion).length
        = completion.length := by simp [scrape_all_tweets]
      _ = links.length := h.length_eq
  · intro link
    rw [scrape_all_fst]
    exact h.count_eq link

/-- Witness for C1 on a two-link batch completing in reversed order. -/
theorem scrape_all_count_witness :
    (scrape_all_tweets (fun _ => Except.ok (defaultMeta "N/A")) ["b", "a"]).length
      = (["a", "b"] : List String).length :=
  (scrape_all_count (fun _ => Except.ok (defaultMeta "N/A")) ["a", "b"] ["b", "a"]
    (List.Perm.swap "a" "b" [])).1

/-- C5: a link whose fetch-and-extract step raises is recorded as an error
result carrying the exception's description; the exception does not escape
the orchestrator, and every other link's entry is exactly what it would
have been under any behavior agreeing outside the failing link. -/
theorem scrape_all_isolates
    (behavior behavior' : String → Except String (List (String × JValue)))
    (badLink e : String) (links completion : List String)
    (hperm : completion.Perm links)
    (hbad : behavior badLink = Except.error e)
    (hagree : ∀ l, l ≠ badLink → behavior' l = behavior l) :
    (badLink ∈ links →
      (badLink, errDict ("Error: " ++ e)) ∈ scrape_all_tweets behavior completion)
    ∧ ∀ p ∈ (scrape_all_tweets behavior completion).zip
              (scrape_all_tweets behavior' completion),
        p.1.1 ≠ badLink → p.1 = p.2 := by
  constructor
  · intro hmem
    have hc : badLink ∈ completion := hperm.mem_iff.mpr hmem
    have hr : runLink behavior badLink = (badLink, errDict ("Error: " ++ e)) := by
      simp [runLink, hbad]
    exact List.mem_map.mpr ⟨badLink, hc, hr⟩
  · intro p hp hne
    unfold scrape_all_tweets at hp
    rw [List.zip_map'] at hp
    obtain ⟨l, hl, rfl⟩ := List.mem_map.mp hp
    have hlne : l ≠ badLink := by
      simpa [runLink_fst] using hne
    have hb : behavior' l = behavior l := hagree l hlne
    simp [runLink, hb]

/-- Witness for C5 on a concrete failing link in a two-link batch. -/
theorem scrape_all_isolates_witness :
    ("bad", errDict ("Error: " ++ "boom")) ∈ scrape_all_tweets
      (fun l => if l = "bad" then Except.error "boom" else Except.ok (defaultMeta "u"))
      ["bad", "good"] :=
  (scrape_all_isolates
    (fun l => if l = "bad" then Except.error "boom" else Except.ok (defaultMeta "u"))
    (fun _ => Except.ok (defaultMeta "u"))
    "bad" "boom" ["good", "bad"] ["bad", "good"]
    (List.Perm.swap "good" "bad" [])
    (by simp)
    (fun l hl => by simp [hl])).1 (by decide)

/-! ### The username derivation -/

theorem dropLit_self (ls r : List Char) : dropLit ls (ls ++ r) = some r :=
  (dropLit_iff ls (ls ++ r) r).mpr rfl

theorem takeWhile_run (p : Char → Bool) (w : List Char) :
    ∀ l : List Char, (∀ c ∈ w, p c = true) →
      (∀ c cs, l = c :: cs → p c = false) →
      (w ++ l).takeWhile p = w ∧ (w ++ l).dropWhile p = l := by
  induction w with
  | nil =>
    intro l _ hl
    cases l with
    | nil => exact ⟨rfl, rfl⟩
    | cons c cs =>
      have := hl c cs rfl
      constructor
      · simp [List.takeWhile_cons, this]
      · simp [List.dropWhile_cons, this]
  | cons a w ih =>
    intro l hw hl
    have ha : p a = true := hw a (List.mem_cons_self a w)
    have hrest := ih l (fun c hc => hw c (List.mem_cons_of_mem a hc)) hl
    constructor
    · simp [List.takeWhile_cons, ha, hrest.1]
    · simp [List.dropWhile_cons, ha, hrest.2]

theorem statusLit_head_not_word :
    ∀ c cs, statusLit ++ c :: cs = '/' :: (statusLit.tail ++ c :: cs) := by
  intro c cs
  rfl

theorem matchUserAt_sound (cs w : List Char) (h : matchUserAt cs = some w) :
    ∃ d rest, cs = hostLit ++ (w ++ (statusLit ++ d :: rest))
      ∧ w ≠ [] ∧ (∀ c ∈ w, isPyWordChar c = true) ∧ d.isDigit = true := by
  unfold matchUserAt at h
  split at h
  · cases h
  · rename_i rest hdrop
    simp only at h
    split at h
    · cases h
    · rename_i hne
      split at h
      · cases h
      · rename_i rest2 hdrop2
        split at h
        · cases h
        · rename_i hne2
          cases h
          have hcs : cs = hostLit ++ rest := (dropLit_iff _ _ _).mp hdrop
          have hsplit : rest.takeWhile isPyWordChar ++ rest.dropWhile isPyWordChar = rest :=
            List.takeWhile_append_dropWhile isPyWordChar rest
          have hrest2 : rest.dropWhile isPyWordChar = statusLit ++ rest2 :=
            (dropLit_iff _ _ _).mp hdrop2
          cases hr2 : rest2 with
          | nil =>
            rw [hr2] at hne2
            simp [List.takeWhile] at hne2
          | cons d rest' =>
            refine ⟨d, rest', ?_, ?_, ?_, ?_⟩
            · rw [hcs]
              conv_lhs => rw [← hsplit, hrest2, hr2]
            · intro hnil
              rw [hnil] at hne
              simp at hne
            · intro c hc
              exact List.mem_takeWhile_imp hc
            · by_contra hd
              rw [hr2] at hne2
              simp [List.takeWhile_cons, Bool.of_not_eq_true hd] at hne2

theorem matchUserAt_complete (w : List Char) (d : Char) (rest : List Char)
    (hw : w ≠ []) (hwc : ∀ c ∈ w, isPyWordChar c = true) (hd : d.isDigit = true) :
    matchUserAt (hostLit ++ (w ++ (statusLit ++ d :: rest))) = some w := by
  have h1 : dropLit hostLit (hostLit ++ (w ++ (statusLit ++ d :: rest)))
      = some (w ++ (statusLit ++ d :: rest)) := dropLit_self _ _
  have hl : ∀ c cs, statusLit ++ d :: rest = c :: cs → isPyWordChar c = false := by
    intro c cs hc
    have : c = '/' := by
      have := congrArg List.head? hc
      simpa [statusLit] using this.symm
    rw [this]
    decide
  have h2 := takeWhile_run isPyWordChar w (statusLit ++ d :: rest) hwc hl
  have h4 : dropLit statusLit (statusLit ++ d :: rest) = some (d :: rest) :=
    dropLit_self _ _
  have h5 : w.isEmpty = false := by
    cases w with
    | nil => exact absurd rfl hw
    | cons a as => rfl
  unfold matchUserAt
  rw [h1]
  simp only [h2.1, h2.2, h5, Bool.false_eq_true, if_false, h4, List.takeWhile_cons, hd,
    if_true]
  simp

theorem searchUser_sound (cs : List Char) (w : List Char)
    (h : searchUser cs = some w) :
    ∃ pre tail, cs = pre ++ tail ∧ matchUserAt tail = some w := by
  induction cs with
  | nil => cases h
  | cons c cs ih =>
    unfold searchUser at h
    cases hm : matchUserAt (c :: cs) with
    | some w' =>
      rw [hm] at h
      cases h
      exact ⟨[], c :: cs, rfl, hm⟩
    | none =>
      rw [hm] at h
      obtain ⟨pre, tail, hcat, hmt⟩ := ih h
      exact ⟨c :: pre, tail, by rw [hcat]; rfl, hmt⟩

theorem searchUser_complete (pre tail : List Char) (w : List Char)
    (h : matchUserAt tail = some w) : searchUser (pre ++ tail) ≠ none := by
  induction pre with
  | nil =>
    cases tail with
    | nil => cases h
    | cons c cs =>
      simp only [List.nil_append]
      unfold searchUser
      rw [h]
      simp
  | cons p pre ih =>
    show searchUser (p :: (pre ++ tail)) ≠ none
    unfold searchUser
    cases hm : matchUserAt (p :: (pre ++ tail)) with
    | some w' => simp
    | none => simpa using ih

theorem mk_word_ne_NA (w : List Char) (hwc : ∀ c ∈ w, isPyWordChar c = true) :
    String.mk w ≠ "N/A" := by
  intro h
  have hw : w = ['N', '/', 'A'] := by
    have := congrArg String.toList h
    simpa [String.toList] using this
  have : isPyWordChar '/' = true := hwc '/' (by rw [hw]; simp)
  simp [isPyWordChar] at this

/-- C7: the username derivation is a total function of the URL string: on
`https://x.com/alice/status/12345` it returns `alice`; on every URL it
either returns `N/A` or returns the nonempty `\w` path segment sitting
between the host and `/status/` followed by a digit; and whenever the URL
contains the tweet-URL pattern it never returns `N/A`. -/
theorem extract_username_spec :
    extract_username_from_url "https://x.com/alice/status/12345" = "alice"
    ∧ (∀ url : String, extract_username_from_url url = "N/A"
        ∨ ∃ pre w d rest,
            url.toList = pre ++ (hostLit ++ (w ++ (statusLit ++ d :: rest)))
            ∧ w ≠ [] ∧ (∀ c ∈ w, isPyWordChar c = true) ∧ d.isDigit = true
            ∧ extract_username_from_url url = String.mk w)
    ∧ (∀ (url : String) (pre w : List Char) (d : Char) (rest : List Char),
        url.toList = pre ++ (hostLit ++ (w ++ (statusLit ++ d :: rest))) →
        w ≠ [] → (∀ c ∈ w, isPyWordChar c = true) → d.isDigit = true →
        extract_username_from_url url ≠ "N/A") := by
  refine ⟨by decide, ?_, ?_⟩
  · intro url
    cases hs : searchUser url.toList with
    | none =>
      left
      unfold extract_username_from_url
      rw [hs]
    | some w =>
      right
      obtain ⟨pre, tail, hcat, hm⟩ := searchUser_sound _ _ hs
      obtain ⟨d, rest, htail, hw, hwc, hd⟩ := matchUserAt_sound _ _ hm
      refine ⟨pre, w, d, rest, ?_, hw, hwc, hd, ?_⟩
      · rw [hcat, htail]
      · unfold extract_username_from_url
        rw [hs]
  · intro url pre w d rest hurl hw hwc hd hNA
    have hm : matchUserAt (hostLit ++ (w ++ (statusLit ++ d :: rest))) = some w :=
      matchUserAt_complete w d rest hw hwc hd
    have hnn : searchUser url.toList ≠ none := by
      rw [hurl]
      exact searchUser_complete pre _ w hm
    cases hs : searchUser url.toList with
    | none => exact hnn hs
    | some w' =>
      obtain ⟨pre', tail', _, hm'⟩ := searchUser_sound _ _ hs
      obtain ⟨_, _, _, _, hwc', _⟩ := matchUserAt_sound _ _ hm'
      have : extract_username_from_url url = String.mk w' := by
        unfold extract_username_from_url
        rw [hs]
      exact mk_word_ne_NA w' hwc' (this ▸ hNA)

/-- Witness for C7 on a URL embedding the pattern mid-string. -/
theorem extract_username_spec_witness :
    extract_username_from_url "-https://x.com/bob/status/7!" ≠ "N/A" :=
  extract_username_spec.2.2 "-https://x.com/bob/status/7!"
    ['-'] ['b', 'o', 'b'] '7' ['!']
    (by decide) (by decide) (by decide) (by decide)
